import Mathlib

/-
Verification of the cluster-wide instance listing aggregator of the incus
daemon (src/cmd/incusd/main_manpage.go, second unit of the file: the
`instancesGet` HTTP handler together with `doInstancesGetFromNode` and
`doInstancesFullGetFromNode`).

Modelling conventions:
* The Go map `memberAddressInstances` is embedded as an association list;
  its (unspecified) iteration order is the list order.
* The concurrent fan-out (worker pool + one goroutine per remote member)
  is sequentialized in fan-out-plan order.  All claims under study are
  about the merged result after the `wg.Wait()` barrier, which the final
  stable sort makes independent of arrival order.
* External collaborators (metadata store, authorizer, instance renderer,
  remote client) are oracles carried by an `Env` record, as the spec
  treats them (interfaces only).  The fixed 30 second fetch timeout is
  modelled as one possible oracle outcome (`FetchOutcome.timeout`); the
  error string it produces is taken verbatim from the source.
* Machine integers (`int`, `int64`) are embedded as `Int`; none of the
  modelled code paths can overflow them.
* Every run also produces a log of the outward calls it performed
  (store query, remote member fetch, per-instance render), so that
  "never contacts X" properties are statable.
-/

namespace Incus

/-- Status code `api.Error` of the shared API status-code enumeration. -/
def errorCode : Nat := 112

/-- String rendering `api.Error.String()`. -/
def errorStatus : String := "Error"

/-- Name of the default project, `api.ProjectDefaultName`. -/
def projectDefaultName : String := "default"

/-- One row of `db.Instance` as used by the handler: identity plus the
owning member recorded by the location resolver. -/
structure DBInstance where
  id : Int
  name : String
  project : String
  location : String
  itype : String
deriving DecidableEq

/-- The fields of `api.Instance` the handler reads or writes. -/
structure Instance where
  name : String
  project : String
  location : String
  status : String
  statusCode : Nat
  itype : String
deriving DecidableEq

/-- The fields of `api.InstanceFull`: the embedded `api.Instance` plus the
extra live-state payload (abstracted to an optional marker, the handler
never inspects it). -/
structure InstanceFull where
  inst : Instance
  state : Option String
deriving DecidableEq

/-- Modelled from the spec: the filter-expression evaluator is consumed as
"a pure function over result records" (its grammar lives outside src/).
A parsed clause is embedded as a predicate on a full record. -/
structure Clauses where
  clauses : List (InstanceFull → Bool)

/-- Modelled from the spec: `instance.FilterFull` (not under src/) keeps
exactly the records accepted by the parsed clause set. -/
def filterFull (l : List InstanceFull) (c : Clauses) : List InstanceFull :=
  l.filter fun e => c.clauses.all fun p => p e

/-- The Go test `clauses != nil && len(clauses.Clauses) > 0` guarding both
`mustLoadObjects` and the final filtering step. -/
def hasClauses : Option Clauses → Bool
  | some c => !c.clauses.isEmpty
  | none => false

/-- One locally loaded instance (`instance.Instance`): its database ID and
its two render operations, `Render` and `RenderFull` (the latter receives
the host interface inventory). -/
structure LocalInst where
  id : Int
  render : Except String Instance
  renderFull : List String → Except String InstanceFull

/-- Outcome of one batched remote fetch: the remote answers, the
connection/protocol layer fails, or the fixed 30-second timer expires
first. -/
inductive FetchOutcome (α : Type) where
  | success : List α → FetchOutcome α
  | failure : String → FetchOutcome α
  | timeout : FetchOutcome α

/-- The external collaborators of the handler, per request. -/
structure Env where
  /-- `dbCluster.GetProjects` (expansion of the all-projects scope). -/
  projects : Except String (List String)
  /-- `tx.GetInstancesByMemberAddress` for a project set; the offline
  threshold is folded into the oracle, members beyond it appearing under
  the sentinel address "0.0.0.0". -/
  instancesByMember : List String → Except String (List (String × List DBInstance))
  /-- `s.Authorizer.GetPermissionChecker` result: project → name → can view. -/
  permChecker : Except String (String → String → Bool)
  /-- `net.Interfaces()` (its error is discarded by the handler). -/
  hostInterfaces : List String
  /-- `instanceLoadNodeProjectAll` for one project. -/
  loadLocal : String → Except String (List LocalInst)
  /-- Remote listing at recursion 1 (`client.GetInstances...`). -/
  fetch1 : String → FetchOutcome Instance
  /-- Remote listing at full depth (`client.GetInstancesFull...`). -/
  fetch2 : String → FetchOutcome InstanceFull

/-- The request parameters the handler reads. `filterParse` is the result
of `filter.Parse` on the filter string (external parser). -/
structure Req where
  recursionStr : String
  filterParse : Except String (Option Clauses)
  projectName : String
  allProjects : Bool
  isClusterNotification : Bool

/-- Outward calls performed while serving a request. -/
inductive Call where
  | storeQuery : Call
  | fetchMember : String → Call
  | render : Int → Call
  | renderFull : Int → Call
deriving DecidableEq

/-- The response shapes the handler can produce. -/
inductive Response where
  | badRequest : String → Response
  | internalError : String → Response
  | smartError : String → Response
  | syncRefs : List String → Response
  | syncInstances : List Instance → Response
  | syncFull : List InstanceFull → Response
deriving DecidableEq

/-- Digit-string value, as consumed by `strconv.Atoi`. -/
def parseDigits : List Char → Nat → Option Nat
  | [], acc => some acc
  | c :: cs, acc =>
    if c.isDigit then parseDigits cs (acc * 10 + (c.toNat - 48)) else none

/-- `strconv.Atoi`: optional sign followed by at least one digit, and a
range check — the daemon's `int` is 64 bits, and a numeral outside
[-2^63, 2^63-1] makes `Atoi` return `ErrRange`, which the handler treats
like any other parse failure (depth-0 fallback).  A missing form value
reaches it as the empty string. -/
def atoi (s : String) : Option Int :=
  match s.data with
  | [] => none
  | c :: cs =>
    if c = '-' then
      if cs.isEmpty then none
      else (parseDigits cs 0).bind fun n =>
        if n ≤ 2 ^ 63 then some (-(n : Int)) else none
    else if c = '+' then
      if cs.isEmpty then none
      else (parseDigits cs 0).bind fun n =>
        if n < 2 ^ 63 then some (n : Int) else none
    else (parseDigits (c :: cs) 0).bind fun n =>
      if n < 2 ^ 63 then some (n : Int) else none

/-- Modelled from the spec: the canonical reference URL
`api.NewURL().Path(version.APIVersion, "instances", name).Project(project)`
(shared/api is not under src/); built purely from the identity. -/
def instanceURL (project name : String) : String :=
  if project = projectDefaultName then "/1.0/instances/" ++ name
  else "/1.0/instances/" ++ name ++ "?project=" ++ project

/-- The entry built by `resultErrListAppend` (source lines 334-349): the
identity fields plus an Error status.  The `err` argument is received but
never used by the source closure, so the entry does not depend on it. -/
def resultErrEntry (inst : DBInstance) (err : String) : InstanceFull :=
  { inst :=
      { name := inst.name
        project := inst.project
        location := inst.location
        status := errorStatus
        statusCode := errorCode
        itype := inst.itype }
    state := none }

/-- The reference-only entry built on the `!mustLoadObjects` path (source
lines 420-427): project, name and location only. -/
def refEntry (inst : DBInstance) : InstanceFull :=
  { inst :=
      { name := inst.name
        project := inst.project
        location := inst.location
        status := ""
        statusCode := 0
        itype := "" }
    state := none }

/-- `mustLoadObjects` (source line 271). -/
def mustLoadObjects (recursion : Int) (cl : Option Clauses) : Bool :=
  decide (recursion > 0) || (recursion == 0 && hasClauses cl)

/-- Lexicographic strict order on character lists, by code point. -/
def charListLT : List Char → List Char → Bool
  | _, [] => false
  | [], _ :: _ => true
  | a :: as, b :: bs =>
    if a.toNat < b.toNat then true
    else if b.toNat < a.toNat then false
    else charListLT as bs

/-- Go's `<` on strings: lexicographic by bytes, which for UTF-8 encoded
text coincides with lexicographic comparison by code point. -/
def strLT (a b : String) : Bool := charListLT a.data b.data

/-- The comparison closure of `sort.SliceStable` (source lines 496-502):
project ascending, then name ascending. -/
def entryLess (a b : InstanceFull) : Bool :=
  if a.inst.project = b.inst.project then strLT a.inst.name b.inst.name
  else strLT a.inst.project b.inst.project

/-- Nonstrict counterpart of `entryLess`, the order the sorted result
satisfies. -/
def entryLE (a b : InstanceFull) : Prop := entryLess b a = false

instance : DecidableRel entryLE := fun a b =>
  inferInstanceAs (Decidable (entryLess b a = false))

/-- `sort.SliceStable` over `entryLess`.  A stable sort is uniquely
determined by its comparison and the input order, so insertion sort is
an exact model of it. -/
def sortEntries (l : List InstanceFull) : List InstanceFull :=
  l.insertionSort entryLE

/-- `doInstancesGetFromNode` (source lines 536-583): one batched
recursion-1 listing against a remote member, 30-second bound; on expiry
the source substitutes the timeout error string built here. -/
def doInstancesGetFromNode (env : Env) (node : String) : Except String (List Instance) :=
  match env.fetch1 node with
  | .success l => .ok l
  | .failure m => .error m
  | .timeout => .error ("Timeout getting instances from member " ++ node)

/-- `doInstancesFullGetFromNode` (source lines 585-632), same shape at
full depth. -/
def doInstancesFullGetFromNode (env : Env) (node : String) : Except String (List InstanceFull) :=
  match env.fetch2 node with
  | .success l => .ok l
  | .failure m => .error m
  | .timeout => .error ("Timeout getting instances from member " ++ node)

/-- `instanceLoadNodeProjectAll` over the filtered project list (source
lines 434-444), wrapping a failure exactly as the source does. -/
def loadLocalAll (env : Env) : List String → Except String (List LocalInst)
  | [] => .ok []
  | p :: ps =>
    match env.loadLocal p with
    | .error e =>
        .error ("Failed loading instances for project \"" ++ p ++ "\": " ++ e)
    | .ok l =>
      match loadLocalAll env ps with
      | .error e => .error e
      | .ok rest => .ok (l ++ rest)

/-- Lookup in `localInstancesByID`; on duplicate IDs the last map insert
wins, as in Go. -/
def lookupLocal (l : List LocalInst) (i : Int) : Option LocalInst :=
  l.reverse.find? fun li => li.id == i

/-- One unit of work of the local worker pool (source lines 451-483): an
identity absent from the loaded local map is skipped without producing
any entry; otherwise `Render` (recursion < 2) or `RenderFull` runs and a
failure becomes an error entry for that identity alone. -/
def renderOne (env : Env) (recursion : Int) (byID : Int → Option LocalInst)
    (dbInst : DBInstance) : List InstanceFull × List Call :=
  match byID dbInst.id with
  | none => ([], [])
  | some li =>
    if recursion < 2 then
      match li.render with
      | .error e => ([resultErrEntry dbInst e], [Call.render dbInst.id])
      | .ok c => ([{ inst := c, state := none }], [Call.render dbInst.id])
    else
      match li.renderFull env.hostInterfaces with
      | .error e => ([resultErrEntry dbInst e], [Call.renderFull dbInst.id])
      | .ok c => ([c], [Call.renderFull dbInst.id])

/-- Drain of the local work queue: every queued identity is consumed
exactly once; the pool is a join barrier. -/
def renderAll (env : Env) (recursion : Int) (byID : Int → Option LocalInst) :
    List DBInstance → List InstanceFull × List Call
  | [] => ([], [])
  | i :: is =>
    let r := renderOne env recursion byID i
    let rest := renderAll env recursion byID is
    (r.1 ++ rest.1, r.2 ++ rest.2)

/-- The local-member branch (source lines 428-491): load all node-local
instances of the filtered projects (a failure is an internal error for
the whole request), then render the member's identities. -/
def localMemberEntries (env : Env) (recursion : Int) (projects : List String)
    (insts : List DBInstance) : Except Response (List InstanceFull × List Call) :=
  match loadLocalAll env projects with
  | .error e => .error (Response.internalError e)
  | .ok lis => .ok (renderAll env recursion (lookupLocal lis) insts)

/-- The body of the fan-out loop (source lines 362-492) for one member of
the fan-out plan, in the source's branch order: cluster-notification
skip, unavailable-member short circuit, remote fetch, reference-only
emission, local render. -/
def memberEntries (env : Env) (notif : Bool) (recursion : Int) (mustLoad : Bool)
    (projects : List String) (addr : String) (insts : List DBInstance) :
    Except Response (List InstanceFull × List Call) :=
  if notif && addr != "" then .ok ([], [])
  else if mustLoad && addr == "0.0.0.0" then
    .ok (insts.map (fun i => resultErrEntry i "unavailable"), [])
  else if mustLoad && addr != "" && !notif then
    if recursion == 1 then
      match doInstancesGetFromNode env addr with
      | .error e => .ok (insts.map (fun i => resultErrEntry i e), [Call.fetchMember addr])
      | .ok apiInsts =>
          .ok (apiInsts.map (fun i => { inst := i, state := none }), [Call.fetchMember addr])
    else
      match doInstancesFullGetFromNode env addr with
      | .error e => .ok (insts.map (fun i => resultErrEntry i e), [Call.fetchMember addr])
      | .ok cs => .ok (cs, [Call.fetchMember addr])
  else if !mustLoad then
    .ok (insts.map refEntry, [])
  else localMemberEntries env recursion projects insts

/-- The whole fan-out over the member plan, merging per-member outcome
lists in plan order (the mutex-guarded appends race in the source; the
order is normalized by the later sort).  A local-load failure aborts the
loop as the source's early `return` does; calls made before it remain
performed. -/
def aggregateEntries (env : Env) (notif : Bool) (recursion : Int) (mustLoad : Bool)
    (projects : List String) :
    List (String × List DBInstance) → Except (Response × List Call) (List InstanceFull × List Call)
  | [] => .ok ([], [])
  | m :: ms =>
    match memberEntries env notif recursion mustLoad projects m.1 m.2 with
    | .error r => .error (r, [])
    | .ok (es, cs) =>
      match aggregateEntries env notif recursion mustLoad projects ms with
      | .error (r, cs2) => .error (r, cs ++ cs2)
      | .ok (es2, cs2) => .ok (es ++ es2, cs ++ cs2)

/-- The permission filter (source lines 320-332): order-preserving
removal of identities the principal may not view, keyed by
`auth.ObjectInstance(project, name)`. -/
def permFilter (check : String → String → Bool)
    (mm : List (String × List DBInstance)) : List (String × List DBInstance) :=
  mm.map fun m => (m.1, m.2.filter fun i => check i.project i.name)

/-- The location-resolution transaction (source lines 287-312): expand
the all-projects scope, then group instances by owning member address. -/
def locationPlan (env : Env) (allProjects : Bool) (projectName : String) :
    Except String (List String × List (String × List DBInstance)) :=
  match (if allProjects then env.projects else Except.ok [projectName]) with
  | .error e => .error e
  | .ok projs =>
    match env.instancesByMember projs with
    | .error e => .error ("Failed getting instances by member address: " ++ e)
    | .ok mm => .ok (projs, mm)

/-- The final filtering step (source lines 504-510). -/
def applyFilter (cl : Option Clauses) (l : List InstanceFull) : List InstanceFull :=
  match cl with
  | some c => if c.clauses.isEmpty then l else filterFull l c
  | none => l

/-- Projection to the requested depth (source lines 512-531): references
at recursion 0, the embedded summary structs at recursion 1, the full
structs otherwise. -/
def projectOutput (recursion : Int) (final : List InstanceFull) : Response :=
  if recursion == 0 then
    Response.syncRefs (final.map fun e => instanceURL e.inst.project e.inst.name)
  else if recursion == 1 then
    Response.syncInstances (final.map fun e => e.inst)
  else Response.syncFull final

/-- `instancesGet` after parameter parsing: filter validation, scope
validation, resolution, permission filtering, fan-out, sort, filter,
projection — in the source's order (lines 264-531). -/
def instancesGetCore (env : Env) (notif : Bool) (fp : Except String (Option Clauses))
    (allProjects : Bool) (projectName : String) (recursion : Int) : Response × List Call :=
  match fp with
  | .error e => (Response.badRequest ("Invalid filter: " ++ e), [])
  | .ok cl =>
    if allProjects && projectName != "" then
      (Response.badRequest "Cannot specify a project when requesting all projects", [])
    else
      match locationPlan env allProjects
          (if !allProjects && projectName == "" then projectDefaultName else projectName) with
      | .error e => (Response.smartError e, [Call.storeQuery])
      | .ok (projs, mm) =>
        match env.permChecker with
        | .error e => (Response.internalError e, [Call.storeQuery])
        | .ok check =>
          match aggregateEntries env notif recursion (mustLoadObjects recursion cl) projs
              (permFilter check mm) with
          | .error (resp, calls) => (resp, Call.storeQuery :: calls)
          | .ok (entries, calls) =>
              (projectOutput recursion (applyFilter cl (sortEntries entries)),
               Call.storeQuery :: calls)

/-- The `instancesGet` handler (source lines 252-532): an absent or
unparsable recursion form value falls back to 0 (lines 259-262), then the
core pipeline runs. -/
def instancesGet (env : Env) (req : Req) : Response × List Call :=
  instancesGetCore env req.isClusterNotification req.filterParse req.allProjects
    req.projectName ((atoi req.recursionStr).getD 0)

/-- Key of an outcome entry: (project, name). -/
def keyOf (e : InstanceFull) : String × String := (e.inst.project, e.inst.name)

/-- Key of a resolved identity: (project, name). -/
def keyOfDB (i : DBInstance) : String × String := (i.project, i.name)

/-- Identities of a fan-out plan, flattened in plan order. -/
def planKeys : List (String × List DBInstance) → List (String × String)
  | [] => []
  | m :: ms => m.2.map keyOfDB ++ planKeys ms

/-- Reference entries of a fan-out plan, flattened in plan order. -/
def planRefs : List (String × List DBInstance) → List InstanceFull
  | [] => []
  | m :: ms => m.2.map refEntry ++ planRefs ms

/-- Client-error discriminator (HTTP 400 class). -/
def Response.isClientError : Response → Bool
  | .badRequest _ => true
  | _ => false

/-- Success-shape discriminator: the response carries a result list. -/
def Response.isSync : Response → Bool
  | .syncRefs _ => true
  | .syncInstances _ => true
  | .syncFull _ => true
  | _ => false

/-- Two environments that may differ only in the fetch oracles of one
member address. -/
def agreeExceptAt (e1 e2 : Env) (a : String) : Prop :=
  e1.projects = e2.projects
  ∧ e1.instancesByMember = e2.instancesByMember
  ∧ e1.permChecker = e2.permChecker
  ∧ e1.hostInterfaces = e2.hostInterfaces
  ∧ e1.loadLocal = e2.loadLocal
  ∧ (∀ b, b ≠ a → e1.fetch1 b = e2.fetch1 b)
  ∧ (∀ b, b ≠ a → e1.fetch2 b = e2.fetch2 b)

/-- A loaded local instance renders under the identity it was resolved
as: a successful render result carries the identity's project and name. -/
def renderKeyOK (env : Env) (li : LocalInst) (i : DBInstance) : Prop :=
  (∀ c, li.render = Except.ok c → c.project = i.project ∧ c.name = i.name)
  ∧ (∀ f, li.renderFull env.hostInterfaces = Except.ok f → keyOf f = keyOfDB i)

/- Concrete fixtures used by counterexamples and witnesses. -/

/-- A resolved identity owned by the local member. -/
def iLocal : DBInstance :=
  { id := 1, name := "alpha", project := "default", location := "", itype := "container" }

/-- A resolved identity owned by a remote member. -/
def iRemote : DBInstance :=
  { id := 7, name := "web", project := "default", location := "m1", itype := "container" }

/-- A resolved identity owned by an unavailable member. -/
def iDown : DBInstance :=
  { id := 9, name := "zeta", project := "default", location := "m2", itype := "container" }

/-- The summary record `iLocal` renders to. -/
def cAlpha : Instance :=
  { name := "alpha", project := "default", location := "", status := "Running",
    statusCode := 103, itype := "container" }

/-- The loaded local instance behind `iLocal`. -/
def liAlpha : LocalInst :=
  { id := 1, render := Except.ok cAlpha,
    renderFull := fun _ => Except.ok { inst := cAlpha, state := some "full" } }

/-- Environment with one remote member owning `iRemote`, whose full-depth
fetch outcome is the parameter. -/
def envOf (f2 : FetchOutcome InstanceFull) : Env :=
  { projects := Except.ok ["default"]
    instancesByMember := fun _ => Except.ok [("10.0.0.1", [iRemote])]
    permChecker := Except.ok fun _ _ => true
    hostInterfaces := []
    loadLocal := fun _ => Except.ok []
    fetch1 := fun _ => FetchOutcome.timeout
    fetch2 := fun _ => f2 }

/-- Environment with one remote member owning `iRemote`, whose
recursion-1 fetch outcome is the parameter. -/
def envOf1 (f1 : FetchOutcome Instance) : Env :=
  { projects := Except.ok ["default"]
    instancesByMember := fun _ => Except.ok [("10.0.0.1", [iRemote])]
    permChecker := Except.ok fun _ _ => true
    hostInterfaces := []
    loadLocal := fun _ => Except.ok []
    fetch1 := fun _ => f1
    fetch2 := fun _ => FetchOutcome.timeout }

/-- Environment whose only member is the unavailable sentinel, owning
`iDown`. -/
def envUnavail : Env :=
  { projects := Except.ok ["default"]
    instancesByMember := fun _ => Except.ok [("0.0.0.0", [iDown])]
    permChecker := Except.ok fun _ _ => true
    hostInterfaces := []
    loadLocal := fun _ => Except.ok []
    fetch1 := fun _ => FetchOutcome.timeout
    fetch2 := fun _ => FetchOutcome.timeout }

/-- Environment with one local identity whose ID is absent from the
loaded local instance map. -/
def envDrop : Env :=
  { projects := Except.ok ["default"]
    instancesByMember := fun _ => Except.ok [("", [iLocal])]
    permChecker := Except.ok fun _ _ => true
    hostInterfaces := []
    loadLocal := fun _ => Except.ok []
    fetch1 := fun _ => FetchOutcome.timeout
    fetch2 := fun _ => FetchOutcome.timeout }

/-- A plain full-depth client request. -/
def reqFull : Req :=
  { recursionStr := "2", filterParse := Except.ok none, projectName := "",
    allProjects := false, isClusterNotification := false }

/-- A plain recursion-1 client request. -/
def reqRec1 : Req :=
  { recursionStr := "1", filterParse := Except.ok none, projectName := "",
    allProjects := false, isClusterNotification := false }

/-- A recursion-1 request arriving as an inter-member propagation. -/
def reqNotif1 : Req :=
  { recursionStr := "1", filterParse := Except.ok none, projectName := "",
    allProjects := false, isClusterNotification := true }

/-- A depth-0 request with no filter expression. -/
def reqRefs : Req :=
  { recursionStr := "", filterParse := Except.ok none, projectName := "",
    allProjects := false, isClusterNotification := false }

/- Helper lemmas about the pipeline. -/

theorem applyFilter_trivial (cl : Option Clauses) (l : List InstanceFull)
    (h : hasClauses cl = false) : applyFilter cl l = l := by
  cases cl with
  | none => rfl
  | some c =>
    simp only [hasClauses, Bool.not_eq_false'] at h
    simp [applyFilter, h]

theorem applyFilter_clauses (c : Clauses) (l : List InstanceFull)
    (h : c.clauses.isEmpty = false) : applyFilter (some c) l = filterFull l c := by
  simp [applyFilter, h]

theorem core_success (env : Env) (notif : Bool) (cl : Option Clauses)
    (allP : Bool) (pn : String) (r : Int)
    (projs : List String) (mm : List (String × List DBInstance))
    (check : String → String → Bool)
    (entries : List InstanceFull) (calls : List Call)
    (hscope : (allP && pn != "") = false)
    (hplan : locationPlan env allP (if !allP && pn == "" then projectDefaultName else pn)
      = Except.ok (projs, mm))
    (hperm : env.permChecker = Except.ok check)
    (hagg : aggregateEntries env notif r (mustLoadObjects r cl) projs (permFilter check mm)
      = Except.ok (entries, calls)) :
    instancesGetCore env notif (Except.ok cl) allP pn r
      = (projectOutput r (applyFilter cl (sortEntries entries)), Call.storeQuery :: calls) := by
  unfold instancesGetCore
  rw [hscope]
  simp only [Bool.false_eq_true, if_false, hplan, hperm, hagg]

/-- A local instance whose render operations fail. -/
def liBad : LocalInst :=
  { id := 1, render := Except.error "boom", renderFull := fun _ => Except.error "boom" }

/-- C7: the claim as stated is false — the failed entry does not comprise
the cause of the failure.  Two runs that differ only in the failure cause
of the remote fetch (timeout versus connection error) produce identical
responses; the error entry built from a timeout cause is equal to the one
built from any other cause, because `resultErrListAppend` discards its
error argument. -/
theorem C7_counterexample :
    instancesGet (envOf FetchOutcome.timeout) reqFull
      = instancesGet (envOf (FetchOutcome.failure "connection refused")) reqFull
    ∧ (instancesGet (envOf FetchOutcome.timeout) reqFull).1
      = Response.syncFull
          [resultErrEntry iRemote "Timeout getting instances from member 10.0.0.1"]
    ∧ resultErrEntry iRemote "Timeout getting instances from member 10.0.0.1"
      = resultErrEntry iRemote "connection refused" :=
  ⟨rfl, rfl, rfl⟩

/-- C7 (amended): every failed entry is an error entry comprising the
identity (name, project, location, type) and statusCode = Error with all
detail fields omitted — but the cause is discarded, not recorded in the
entry (the entry is independent of the error argument); a per-identity
render failure becomes exactly one such entry in the merged list rather
than dropping the identity or failing the call. -/
theorem C7_error_entry_shape :
    (∀ (i : DBInstance) (e1 e2 : String), resultErrEntry i e1 = resultErrEntry i e2)
    ∧ (∀ (i : DBInstance) (e : String),
        (resultErrEntry i e).inst.name = i.name
        ∧ (resultErrEntry i e).inst.project = i.project
        ∧ (resultErrEntry i e).inst.location = i.location
        ∧ (resultErrEntry i e).inst.itype = i.itype
        ∧ (resultErrEntry i e).inst.status = errorStatus
        ∧ (resultErrEntry i e).inst.statusCode = errorCode
        ∧ (resultErrEntry i e).state = none)
    ∧ (∀ (env : Env) (r : Int) (byID : Int → Option LocalInst) (i : DBInstance)
        (li : LocalInst) (e : String),
        byID i.id = some li → r < 2 → li.render = Except.error e →
        (renderOne env r byID i).1 = [resultErrEntry i e]) := by
  refine ⟨fun i e1 e2 => rfl, fun i e => ⟨rfl, rfl, rfl, rfl, rfl, rfl, rfl⟩, ?_⟩
  intro env r byID i li e hb hr he
  simp [renderOne, hb, hr, he]

/-- C7 witness: the shape theorem applied to a concrete failing local
render. -/
theorem C7_witness :
    (renderOne envDrop 1 (fun _ => some liBad) iLocal).1 = [resultErrEntry iLocal "boom"] :=
  C7_error_entry_shape.2.2 envDrop 1 (fun _ => some liBad) iLocal liBad "boom" rfl
    (by decide) rfl

/-- C8: a request specifying both an explicit project name and the
all-projects flag is rejected with a client error before any resolution
or fan-out: the call log is empty, so the metadata store, the renderers
and the remote members were never contacted. -/
theorem C8_conflicting_scope (env : Env) (req : Req)
    (hall : req.allProjects = true) (hpn : req.projectName ≠ "") :
    (instancesGet env req).1.isClientError = true ∧ (instancesGet env req).2 = [] := by
  unfold instancesGet instancesGetCore
  cases hfp : req.filterParse with
  | error e => exact ⟨rfl, rfl⟩
  | ok cl =>
    have hc : (req.allProjects && req.projectName != "") = true := by
      rw [hall, Bool.true_and, bne_iff_ne]
      exact hpn
    simp [hc, Response.isClientError]

/-- A request asking for a named project together with all projects. -/
def reqConflict : Req :=
  { recursionStr := "", filterParse := Except.ok none, projectName := "p1",
    allProjects := true, isClusterNotification := false }

/-- C8 witness: the validation theorem applied to a concrete conflicting
request. -/
theorem C8_witness :
    (instancesGet envDrop reqConflict).1.isClientError = true
    ∧ (instancesGet envDrop reqConflict).2 = [] :=
  C8_conflicting_scope envDrop reqConflict rfl (by decide)

/- Recursion depths at or above 2 are indistinguishable from 2
throughout the pipeline. -/

theorem renderOne_ge2 (env : Env) (r : Int) (hr : 2 ≤ r) (byID : Int → Option LocalInst)
    (i : DBInstance) : renderOne env r byID i = renderOne env 2 byID i := by
  have h1 : ¬(r < 2) := by omega
  have h2 : ¬((2 : Int) < 2) := by omega
  unfold renderOne
  cases byID i.id <;> simp [h1, h2]

theorem renderAll_ge2 (env : Env) (r : Int) (hr : 2 ≤ r) (byID : Int → Option LocalInst)
    (l : List DBInstance) : renderAll env r byID l = renderAll env 2 byID l := by
  induction l with
  | nil => rfl
  | cons i is ih =>
    unfold renderAll
    rw [renderOne_ge2 env r hr byID i, ih]

theorem localMemberEntries_ge2 (env : Env) (r : Int) (hr : 2 ≤ r) (projs : List String)
    (insts : List DBInstance) :
    localMemberEntries env r projs insts = localMemberEntries env 2 projs insts := by
  unfold localMemberEntries
  cases loadLocalAll env projs with
  | error e => rfl
  | ok lis => simp [renderAll_ge2 env r hr (lookupLocal lis) insts]

theorem memberEntries_ge2 (env : Env) (notif : Bool) (r : Int) (hr : 2 ≤ r)
    (mustLoad : Bool) (projs : List String) (addr : String) (insts : List DBInstance) :
    memberEntries env notif r mustLoad projs addr insts
      = memberEntries env notif 2 mustLoad projs addr insts := by
  have h1 : (r == 1) = false := by
    rw [beq_eq_false_iff_ne]
    omega
  have h2 : ((2 : Int) == 1) = false := by decide
  unfold memberEntries
  simp only [h1, h2, localMemberEntries_ge2 env r hr projs insts]

theorem aggregateEntries_ge2 (env : Env) (notif : Bool) (r : Int) (hr : 2 ≤ r)
    (mustLoad : Bool) (projs : List String) (l : List (String × List DBInstance)) :
    aggregateEntries env notif r mustLoad projs l
      = aggregateEntries env notif 2 mustLoad projs l := by
  induction l with
  | nil => rfl
  | cons m ms ih =>
    unfold aggregateEntries
    rw [memberEntries_ge2 env notif r hr mustLoad projs m.1 m.2, ih]

theorem core_ge2 (env : Env) (notif : Bool) (fp : Except String (Option Clauses))
    (allP : Bool) (pn : String) (r : Int) (hr : 2 ≤ r) :
    instancesGetCore env notif fp allP pn r = instancesGetCore env notif fp allP pn 2 := by
  cases fp with
  | error e => rfl
  | ok cl =>
    have hml : mustLoadObjects r cl = mustLoadObjects 2 cl := by
      unfold mustLoadObjects
      have ht : decide (r > 0) = true := by
        simp only [decide_eq_true_eq]
        omega
      have ht2 : decide ((2 : Int) > 0) = true := by decide
      rw [ht, ht2]
      simp
    have hpo : ∀ l, projectOutput r l = projectOutput 2 l := by
      intro l
      have h0 : (r == 0) = false := by
        rw [beq_eq_false_iff_ne]
        omega
      have h1 : (r == 1) = false := by
        rw [beq_eq_false_iff_ne]
        omega
      unfold projectOutput
      simp only [h0, h1]
      rfl
    unfold instancesGetCore
    simp only [hml, aggregateEntries_ge2 env notif r hr, hpo]

/- Shape analysis: which constructors a finished run can produce. -/

theorem localMemberEntries_error_internal (env : Env) (r : Int) (projs : List String)
    (insts : List DBInstance) (resp : Response)
    (h : localMemberEntries env r projs insts = Except.error resp) :
    ∃ m, resp = Response.internalError m := by
  unfold localMemberEntries at h
  cases hl : loadLocalAll env projs with
  | error e =>
    rw [hl] at h
    injection h with h
    exact ⟨e, h.symm⟩
  | ok lis =>
    rw [hl] at h
    cases h

theorem memberEntries_error_internal (env : Env) (notif : Bool) (r : Int) (mustLoad : Bool)
    (projs : List String) (addr : String) (insts : List DBInstance) (resp : Response)
    (h : memberEntries env notif r mustLoad projs addr insts = Except.error resp) :
    ∃ m, resp = Response.internalError m := by
  unfold memberEntries at h
  split at h
  · cases h
  · split at h
    · cases h
    · split at h
      · split at h <;> split at h <;> cases h
      · split at h
        · cases h
        · exact localMemberEntries_error_internal env r projs insts resp h

theorem aggregateEntries_error_internal (env : Env) (notif : Bool) (r : Int)
    (mustLoad : Bool) (projs : List String) (l : List (String × List DBInstance))
    (resp : Response) (calls : List Call)
    (h : aggregateEntries env notif r mustLoad projs l = Except.error (resp, calls)) :
    ∃ m, resp = Response.internalError m := by
  induction l generalizing resp calls with
  | nil => cases h
  | cons m ms ih =>
    unfold aggregateEntries at h
    cases hm : memberEntries env notif r mustLoad projs m.1 m.2 with
    | error rm =>
      rw [hm] at h
      simp only [Except.error.injEq, Prod.mk.injEq] at h
      obtain ⟨h1, -⟩ := h
      exact h1 ▸ memberEntries_error_internal env notif r mustLoad projs m.1 m.2 rm hm
    | ok res =>
      rw [hm] at h
      obtain ⟨es, cs⟩ := res
      cases ha : aggregateEntries env notif r mustLoad projs ms with
      | error rc =>
        obtain ⟨r2, cs2⟩ := rc
        rw [ha] at h
        simp only [Except.error.injEq, Prod.mk.injEq] at h
        obtain ⟨h1, -⟩ := h
        exact h1 ▸ ih r2 cs2 ha
      | ok res2 =>
        rw [ha] at h
        obtain ⟨es2, cs2⟩ := res2
        cases h

theorem projectOutput_syncRefs (r : Int) (final : List InstanceFull) (us : List String)
    (h : projectOutput r final = Response.syncRefs us) : r = 0 := by
  unfold projectOutput at h
  by_cases h0 : (r == 0) = true
  · exact eq_of_beq h0
  · rw [Bool.not_eq_true] at h0
    rw [h0] at h
    simp only [Bool.false_eq_true, if_false] at h
    by_cases h1 : (r == 1) = true
    · rw [h1] at h
      simp only [if_true] at h
      cases h
    · rw [Bool.not_eq_true] at h1
      rw [h1] at h
      simp only [Bool.false_eq_true, if_false] at h
      cases h

theorem projectOutput_syncInstances (r : Int) (final : List InstanceFull)
    (l : List Instance)
    (h : projectOutput r final = Response.syncInstances l) : r = 1 := by
  unfold projectOutput at h
  by_cases h0 : (r == 0) = true
  · rw [h0] at h
    simp only [if_true] at h
    cases h
  · rw [Bool.not_eq_true] at h0
    rw [h0] at h
    simp only [Bool.false_eq_true, if_false] at h
    by_cases h1 : (r == 1) = true
    · exact eq_of_beq h1
    · rw [Bool.not_eq_true] at h1
      rw [h1] at h
      simp only [Bool.false_eq_true, if_false] at h
      cases h

theorem core_syncRefs_recursion (env : Env) (notif : Bool) (cl : Option Clauses)
    (allP : Bool) (pn : String) (r : Int) (us : List String)
    (h : (instancesGetCore env notif (Except.ok cl) allP pn r).1 = Response.syncRefs us) :
    r = 0 := by
  simp only [instancesGetCore] at h
  by_cases hsc : (allP && pn != "") = true
  · rw [hsc] at h
    simp at h
  · rw [Bool.not_eq_true] at hsc
    rw [hsc] at h
    simp only [Bool.false_eq_true, if_false] at h
    cases hplan : locationPlan env allP
        (if (!allP && pn == "") = true then projectDefaultName else pn) with
    | error e =>
      simp only [hplan] at h
      simp at h
    | ok pm =>
      obtain ⟨projs, mm⟩ := pm
      simp only [hplan] at h
      cases hpc : env.permChecker with
      | error e =>
        simp only [hpc] at h
        simp at h
      | ok check =>
        simp only [hpc] at h
        cases hagg : aggregateEntries env notif r (mustLoadObjects r cl) projs
            (permFilter check mm) with
        | error rc =>
          obtain ⟨resp, calls⟩ := rc
          simp only [hagg] at h
          obtain ⟨m, hm⟩ := aggregateEntries_error_internal env notif r _ _ _ resp calls hagg
          rw [hm] at h
          simp at h
        | ok ec =>
          obtain ⟨entries, calls⟩ := ec
          simp only [hagg] at h
          exact projectOutput_syncRefs r _ us h

theorem core_syncInstances_recursion (env : Env) (notif : Bool) (cl : Option Clauses)
    (allP : Bool) (pn : String) (r : Int) (l : List Instance)
    (h : (instancesGetCore env notif (Except.ok cl) allP pn r).1 = Response.syncInstances l) :
    r = 1 := by
  simp only [instancesGetCore] at h
  by_cases hsc : (allP && pn != "") = true
  · rw [hsc] at h
    simp at h
  · rw [Bool.not_eq_true] at hsc
    rw [hsc] at h
    simp only [Bool.false_eq_true, if_false] at h
    cases hplan : locationPlan env allP
        (if (!allP && pn == "") = true then projectDefaultName else pn) with
    | error e =>
      simp only [hplan] at h
      simp at h
    | ok pm =>
      obtain ⟨projs, mm⟩ := pm
      simp only [hplan] at h
      cases hpc : env.permChecker with
      | error e =>
        simp only [hpc] at h
        simp at h
      | ok check =>
        simp only [hpc] at h
        cases hagg : aggregateEntries env notif r (mustLoadObjects r cl) projs
            (permFilter check mm) with
        | error rc =>
          obtain ⟨resp, calls⟩ := rc
          simp only [hagg] at h
          obtain ⟨m, hm⟩ := aggregateEntries_error_internal env notif r _ _ _ resp calls hagg
          rw [hm] at h
          simp at h
        | ok ec =>
          obtain ⟨entries, calls⟩ := ec
          simp only [hagg] at h
          exact projectOutput_syncInstances r _ l h

/-- A recursion-5 client request (behaves as full depth). -/
def reqRec5 : Req :=
  { recursionStr := "5", filterParse := Except.ok none, projectName := "",
    allProjects := false, isClusterNotification := false }

/-- C9: an absent or unparsable recursion form value behaves as depth 0;
every depth at or above 2 behaves exactly as depth 2; the reference and
summary projections are produced only at the exact depths 0 and 1. -/
theorem C9_recursion_parsing :
    (∀ (env : Env) (req : Req), atoi req.recursionStr = none →
      instancesGet env req = instancesGet env { req with recursionStr := "0" })
    ∧ (∀ (env : Env) (req : Req) (n : Int), 2 ≤ n → atoi req.recursionStr = some n →
      instancesGet env req = instancesGet env { req with recursionStr := "2" })
    ∧ (∀ (env : Env) (req : Req) (n : Int) (us : List String),
        atoi req.recursionStr = some n → n ≠ 0 →
        (instancesGet env req).1 ≠ Response.syncRefs us)
    ∧ (∀ (env : Env) (req : Req) (n : Int) (l : List Instance),
        atoi req.recursionStr = some n → n ≠ 1 →
        (instancesGet env req).1 ≠ Response.syncInstances l) := by
  refine ⟨?_, ?_, ?_, ?_⟩
  · intro env req h
    unfold instancesGet
    rw [h]
    rfl
  · intro env req n hn h
    unfold instancesGet
    rw [h]
    exact core_ge2 env req.isClusterNotification req.filterParse req.allProjects
      req.projectName n hn
  · intro env req n us h hn hc
    unfold instancesGet at hc
    rw [h] at hc
    cases hfp : req.filterParse with
    | error e =>
      rw [hfp] at hc
      exact absurd hc (by simp [instancesGetCore])
    | ok cl =>
      rw [hfp] at hc
      exact hn (core_syncRefs_recursion env req.isClusterNotification cl
        req.allProjects req.projectName n us hc)
  · intro env req n l h hn hc
    unfold instancesGet at hc
    rw [h] at hc
    cases hfp : req.filterParse with
    | error e =>
      rw [hfp] at hc
      exact absurd hc (by simp [instancesGetCore])
    | ok cl =>
      rw [hfp] at hc
      exact hn (core_syncInstances_recursion env req.isClusterNotification cl
        req.allProjects req.projectName n l hc)

/-- A request whose recursion string overflows a 64-bit int: `Atoi`
fails with a range error and the handler falls back to depth 0. -/
def reqOverflow : Req :=
  { recursionStr := "99999999999999999999", filterParse := Except.ok none,
    projectName := "", allProjects := false, isClusterNotification := false }

/-- C9 witness: the recursion-parameter theorem applied to concrete
requests with an absent, an out-of-range, a large and an exact
recursion value. -/
theorem C9_witness :
    instancesGet envDrop reqRefs = instancesGet envDrop { reqRefs with recursionStr := "0" }
    ∧ instancesGet envDrop reqOverflow
      = instancesGet envDrop { reqOverflow with recursionStr := "0" }
    ∧ instancesGet envDrop reqRec5 = instancesGet envDrop { reqRec5 with recursionStr := "2" }
    ∧ (instancesGet envDrop reqFull).1 ≠ Response.syncRefs []
    ∧ (instancesGet envDrop reqFull).1 ≠ Response.syncInstances [] :=
  ⟨C9_recursion_parsing.1 envDrop reqRefs rfl,
   C9_recursion_parsing.1 envDrop reqOverflow (by decide),
   C9_recursion_parsing.2.1 envDrop reqRec5 5 (by decide) rfl,
   C9_recursion_parsing.2.2.1 envDrop reqFull 2 [] rfl (by decide),
   C9_recursion_parsing.2.2.2 envDrop reqFull 2 [] rfl (by decide)⟩

/- Classification of the calls each component can log: no component ever
issues a member fetch against the unavailability sentinel. -/

theorem renderOne_no_fetch (env : Env) (r : Int) (byID : Int → Option LocalInst)
    (i : DBInstance) (a : String) : Call.fetchMember a ∉ (renderOne env r byID i).2 := by
  unfold renderOne
  cases byID i.id with
  | none => simp
  | some li =>
    by_cases h : r < 2
    · cases hr : li.render <;> simp [h, hr]
    · cases hr : li.renderFull env.hostInterfaces <;> simp [h, hr]

theorem renderAll_no_fetch (env : Env) (r : Int) (byID : Int → Option LocalInst)
    (l : List DBInstance) (a : String) : Call.fetchMember a ∉ (renderAll env r byID l).2 := by
  induction l with
  | nil => simp [renderAll]
  | cons i is ih =>
    unfold renderAll
    simp only [List.mem_append]
    rintro (h | h)
    · exact renderOne_no_fetch env r byID i a h
    · exact ih h

theorem memberEntries_no_sentinel (env : Env) (notif : Bool) (r : Int) (mustLoad : Bool)
    (projs : List String) (addr : String) (insts : List DBInstance)
    (es : List InstanceFull) (cs : List Call)
    (h : memberEntries env notif r mustLoad projs addr insts = Except.ok (es, cs)) :
    Call.fetchMember "0.0.0.0" ∉ cs := by
  unfold memberEntries at h
  split at h
  · injection h with h
    injection h with h1 h2
    rw [← h2]
    simp
  · split at h
    · injection h with h
      injection h with h1 h2
      rw [← h2]
      simp
    · split at h
      · rename_i hml0 hrem
        have haddr : (addr == "0.0.0.0") = false := by
          have hml : mustLoad = true := by
            rcases Bool.and_eq_true_iff.mp hrem with ⟨h3, -⟩
            rcases Bool.and_eq_true_iff.mp h3 with ⟨h4, -⟩
            exact h4
          cases hb : (addr == "0.0.0.0") with
          | false => rfl
          | true =>
            refine absurd ?_ hml0
            rw [hml, hb]
            rfl
        have hne : Call.fetchMember addr ≠ Call.fetchMember "0.0.0.0" := by
          intro hc
          injection hc with hc
          rw [hc] at haddr
          simp at haddr
        split at h
        · split at h <;>
          { injection h with h
            injection h with h1 h2
            rw [← h2]
            simp only [List.mem_singleton]
            exact fun hc => hne hc.symm }
        · split at h <;>
          { injection h with h
            injection h with h1 h2
            rw [← h2]
            simp only [List.mem_singleton]
            exact fun hc => hne hc.symm }
      · split at h
        · injection h with h
          injection h with h1 h2
          rw [← h2]
          simp
        · unfold localMemberEntries at h
          cases hl : loadLocalAll env projs with
          | error e =>
            rw [hl] at h
            cases h
          | ok lis =>
            rw [hl] at h
            injection h with h
            have h2 : (renderAll env r (lookupLocal lis) insts).2 = cs := by rw [h]
            exact h2 ▸ renderAll_no_fetch env r (lookupLocal lis) insts "0.0.0.0"

theorem aggregate_no_sentinel (env : Env) (notif : Bool) (r : Int) (mustLoad : Bool)
    (projs : List String) (l : List (String × List DBInstance)) :
    (∀ es cs, aggregateEntries env notif r mustLoad projs l = Except.ok (es, cs) →
      Call.fetchMember "0.0.0.0" ∉ cs)
    ∧ (∀ resp cs, aggregateEntries env notif r mustLoad projs l = Except.error (resp, cs) →
      Call.fetchMember "0.0.0.0" ∉ cs) := by
  induction l with
  | nil =>
    constructor
    · intro es cs h
      injection h with h
      injection h with h1 h2
      rw [← h2]
      simp
    · intro resp cs h
      cases h
  | cons m ms ih =>
    constructor
    · intro es cs h
      unfold aggregateEntries at h
      cases hm : memberEntries env notif r mustLoad projs m.1 m.2 with
      | error rm =>
        rw [hm] at h
        cases h
      | ok res =>
        rw [hm] at h
        obtain ⟨es1, cs1⟩ := res
        cases ha : aggregateEntries env notif r mustLoad projs ms with
        | error rc =>
          obtain ⟨r2, cs2⟩ := rc
          rw [ha] at h
          cases h
        | ok res2 =>
          obtain ⟨es2, cs2⟩ := res2
          rw [ha] at h
          injection h with h
          injection h with h1 h2
          rw [← h2]
          simp only [List.mem_append]
          rintro (hc | hc)
          · exact memberEntries_no_sentinel env notif r mustLoad projs m.1 m.2 es1 cs1 hm hc
          · exact ih.1 es2 cs2 ha hc
    · intro resp cs h
      unfold aggregateEntries at h
      cases hm : memberEntries env notif r mustLoad projs m.1 m.2 with
      | error rm =>
        rw [hm] at h
        injection h with h
        injection h with h1 h2
        rw [← h2]
        simp
      | ok res =>
        rw [hm] at h
        obtain ⟨es1, cs1⟩ := res
        cases ha : aggregateEntries env notif r mustLoad projs ms with
        | error rc =>
          obtain ⟨r2, cs2⟩ := rc
          rw [ha] at h
          injection h with h
          injection h with h1 h2
          rw [← h2]
          simp only [List.mem_append]
          rintro (hc | hc)
          · exact memberEntries_no_sentinel env notif r mustLoad projs m.1 m.2 es1 cs1 hm hc
          · exact ih.2 r2 cs2 ha hc
        | ok res2 =>
          obtain ⟨es2, cs2⟩ := res2
          rw [ha] at h
          cases h

theorem instancesGet_no_sentinel_fetch (env : Env) (req : Req) :
    Call.fetchMember "0.0.0.0" ∉ (instancesGet env req).2 := by
  unfold instancesGet
  cases hfp : req.filterParse with
  | error e => simp [instancesGetCore]
  | ok cl =>
    simp only [instancesGetCore]
    by_cases hsc : (req.allProjects && req.projectName != "") = true
    · rw [hsc]
      simp
    · rw [Bool.not_eq_true] at hsc
      rw [hsc]
      simp only [Bool.false_eq_true, if_false]
      cases hplan : locationPlan env req.allProjects
          (if (!req.allProjects && req.projectName == "") = true then projectDefaultName
           else req.projectName) with
      | error e =>
        simp only [hplan]
        simp
      | ok pm =>
        obtain ⟨projs, mm⟩ := pm
        simp only [hplan]
        cases hpc : env.permChecker with
        | error e =>
          simp only [hpc]
          simp
        | ok check =>
          simp only [hpc]
          cases hagg : aggregateEntries env req.isClusterNotification
              ((atoi req.recursionStr).getD 0)
              (mustLoadObjects ((atoi req.recursionStr).getD 0) cl) projs
              (permFilter check mm) with
          | error rc =>
            obtain ⟨resp, cs⟩ := rc
            simp only [hagg]
            intro hmem
            rcases List.mem_cons.mp hmem with hc | hc
            · cases hc
            · exact (aggregate_no_sentinel env req.isClusterNotification _ _ projs
                (permFilter check mm)).2 resp cs hagg hc
          | ok ec =>
            obtain ⟨entries, cs⟩ := ec
            simp only [hagg]
            intro hmem
            rcases List.mem_cons.mp hmem with hc | hc
            · cases hc
            · exact (aggregate_no_sentinel env req.isClusterNotification _ _ projs
                (permFilter check mm)).1 entries cs hagg hc

/-- Every member of the fan-out plan yields plain reference entries when
objects need not be loaded. -/
theorem memberEntries_noload (env : Env) (r : Int) (projs : List String)
    (addr : String) (insts : List DBInstance) :
    memberEntries env false r false projs addr insts = Except.ok (insts.map refEntry, []) := by
  unfold memberEntries
  simp

/-- C3: the claim as stated is false.  A recursion-1 inter-member
propagated request whose plan contains the unavailable member "0.0.0.0"
owning one identity returns an empty list: the identity survives the
permission filter but is skipped outright rather than converted to an
ErrorEntry. -/
theorem C3_counterexample :
    instancesGet envUnavail reqNotif1 = (Response.syncInstances [], [Call.storeQuery])
    ∧ envUnavail.instancesByMember ["default"] = Except.ok [("0.0.0.0", [iDown])]
    ∧ permFilter (fun _ _ => true) [("0.0.0.0", [iDown])] = [("0.0.0.0", [iDown])] :=
  ⟨rfl, rfl, rfl⟩

/-- C3 (amended): no run ever issues a network call to the sentinel
address "0.0.0.0"; and whenever objects must be loaded and the request is
not an inter-member propagation, every identity owned by the sentinel
member is converted directly to an error entry (the cause string
"unavailable" being discarded rather than recorded). -/
theorem C3_unavailable_short_circuit :
    (∀ (env : Env) (req : Req), Call.fetchMember "0.0.0.0" ∉ (instancesGet env req).2)
    ∧ (∀ (env : Env) (r : Int) (projs : List String) (insts : List DBInstance),
      memberEntries env false r true projs "0.0.0.0" insts
        = Except.ok (insts.map (fun i => resultErrEntry i "unavailable"), [])) := by
  constructor
  · exact instancesGet_no_sentinel_fetch
  · intro env r projs insts
    unfold memberEntries
    simp

/-- C3 witness: the short-circuit theorem applied to the concrete
unavailable-member environment. -/
theorem C3_witness :
    Call.fetchMember "0.0.0.0" ∉ (instancesGet envUnavail reqFull).2
    ∧ memberEntries envUnavail false 2 true ["default"] "0.0.0.0" [iDown]
      = Except.ok ([resultErrEntry iDown "unavailable"], []) :=
  ⟨C3_unavailable_short_circuit.1 envUnavail reqFull,
   C3_unavailable_short_circuit.2 envUnavail 2 ["default"] [iDown]⟩

/-- C10: when objects need not be loaded (depth 0 and no non-trivial
filter), identities owned by the member marked "0.0.0.0" are emitted as
ordinary reference entries through exactly the same branch as those of
any other member; the unavailable-to-error conversion fires only when
objects must be loaded; reference entries and error entries are distinct
values. -/
theorem C10_reference_mode_unavailable :
    (∀ (env : Env) (r : Int) (cl : Option Clauses) (projs : List String)
        (addr : String) (insts : List DBInstance),
      mustLoadObjects r cl = false →
      memberEntries env false r (mustLoadObjects r cl) projs addr insts
        = Except.ok (insts.map refEntry, []))
    ∧ (∀ (env : Env) (r : Int) (cl : Option Clauses) (projs : List String)
        (insts : List DBInstance),
      mustLoadObjects r cl = true →
      memberEntries env false r (mustLoadObjects r cl) projs "0.0.0.0" insts
        = Except.ok (insts.map (fun i => resultErrEntry i "unavailable"), []))
    ∧ (∀ i : DBInstance, refEntry i ≠ resultErrEntry i "unavailable") := by
  refine ⟨?_, ?_, ?_⟩
  · intro env r cl projs addr insts h
    rw [h]
    exact memberEntries_noload env r projs addr insts
  · intro env r cl projs insts h
    rw [h]
    unfold memberEntries
    simp
  · intro i h
    have hst := congrArg (fun e => e.inst.status) h
    simp [refEntry, resultErrEntry, errorStatus] at hst

/-- C10 witness: the reference-mode theorem applied to the concrete
sentinel member at depth 0 with no filter, and to the same member when
objects must be loaded. -/
theorem C10_witness :
    memberEntries envUnavail false 0 (mustLoadObjects 0 none) ["default"] "0.0.0.0" [iDown]
      = Except.ok ([refEntry iDown], [])
    ∧ memberEntries envUnavail false 1 (mustLoadObjects 1 none) ["default"] "0.0.0.0" [iDown]
      = Except.ok ([resultErrEntry iDown "unavailable"], [])
    ∧ refEntry iDown ≠ resultErrEntry iDown "unavailable" :=
  ⟨C10_reference_mode_unavailable.1 envUnavail 0 none ["default"] "0.0.0.0" [iDown] rfl,
   C10_reference_mode_unavailable.2.1 envUnavail 1 none ["default"] [iDown] rfl,
   C10_reference_mode_unavailable.2.2 iDown⟩

/- Congruence of the pipeline in the fetch oracles of a single member
address: the outcome for any other member cannot depend on them. -/

theorem loadLocalAll_congr (e1 e2 : Env) (h : e1.loadLocal = e2.loadLocal) :
    ∀ ps, loadLocalAll e1 ps = loadLocalAll e2 ps := by
  intro ps
  induction ps with
  | nil => rfl
  | cons p ps ih =>
    unfold loadLocalAll
    rw [h, ih]

theorem renderOne_congr (e1 e2 : Env) (h : e1.hostInterfaces = e2.hostInterfaces)
    (r : Int) (byID : Int → Option LocalInst) (i : DBInstance) :
    renderOne e1 r byID i = renderOne e2 r byID i := by
  unfold renderOne
  rw [h]

theorem renderAll_congr (e1 e2 : Env) (h : e1.hostInterfaces = e2.hostInterfaces)
    (r : Int) (byID : Int → Option LocalInst) (l : List DBInstance) :
    renderAll e1 r byID l = renderAll e2 r byID l := by
  induction l with
  | nil => rfl
  | cons i is ih =>
    unfold renderAll
    rw [renderOne_congr e1 e2 h r byID i, ih]

theorem localMemberEntries_congr (e1 e2 : Env) (hl : e1.loadLocal = e2.loadLocal)
    (hh : e1.hostInterfaces = e2.hostInterfaces) (r : Int) (projs : List String)
    (insts : List DBInstance) :
    localMemberEntries e1 r projs insts = localMemberEntries e2 r projs insts := by
  unfold localMemberEntries
  rw [loadLocalAll_congr e1 e2 hl projs]
  cases loadLocalAll e2 projs with
  | error e => rfl
  | ok lis => simp [renderAll_congr e1 e2 hh r (lookupLocal lis) insts]

theorem memberEntries_congr (e1 e2 : Env) (a : String) (hag : agreeExceptAt e1 e2 a)
    (notif : Bool) (r : Int) (mustLoad : Bool) (projs : List String) (addr : String)
    (insts : List DBInstance) (hB : addr ≠ a) :
    memberEntries e1 notif r mustLoad projs addr insts
      = memberEntries e2 notif r mustLoad projs addr insts := by
  obtain ⟨-, -, -, hhi, hll, hf1, hf2⟩ := hag
  unfold memberEntries doInstancesGetFromNode doInstancesFullGetFromNode
  rw [hf1 addr hB, hf2 addr hB, localMemberEntries_congr e1 e2 hll hhi r projs insts]

/-- A failing remote member contributes exactly one error entry per
identity it owns, along with the single batched fetch call. -/
theorem memberEntries_remote_failure (env : Env) (r : Int) (projs : List String)
    (addr : String) (insts : List DBInstance) (e : String)
    (hne : addr ≠ "") (hns : addr ≠ "0.0.0.0")
    (h1 : r = 1 → doInstancesGetFromNode env addr = Except.error e)
    (h2 : r ≠ 1 → doInstancesFullGetFromNode env addr = Except.error e) :
    memberEntries env false r true projs addr insts
      = Except.ok (insts.map (fun i => resultErrEntry i e), [Call.fetchMember addr]) := by
  have hb1 : (addr != "") = true := bne_iff_ne.mpr hne
  have hb2 : (addr == "0.0.0.0") = false := by
    rw [beq_eq_false_iff_ne]
    exact hns
  by_cases hr : (r == 1) = true
  · have he := h1 (eq_of_beq hr)
    unfold memberEntries
    simp [hb1, hb2, hr, he]
  · rw [Bool.not_eq_true] at hr
    have hne1 : r ≠ 1 := by
      intro hc
      rw [hc] at hr
      simp at hr
    have he := h2 hne1
    unfold memberEntries
    simp [hb1, hb2, hr, he]

theorem projectOutput_isSync (r : Int) (l : List InstanceFull) :
    (projectOutput r l).isSync = true := by
  unfold projectOutput
  by_cases h0 : (r == 0) = true
  · rw [if_pos h0]
    rfl
  · rw [if_neg h0]
    by_cases h1 : (r == 1) = true
    · rw [if_pos h1]
      rfl
    · rw [if_neg h1]
      rfl

/-- C2: the claim as stated is false in its "with that cause" part: a
timeout and a protocol error at the same member produce identical
responses, because the cause is discarded when building error entries. -/
theorem C2_counterexample :
    instancesGet (envOf1 FetchOutcome.timeout) reqRec1
      = instancesGet (envOf1 (FetchOutcome.failure "protocol error")) reqRec1
    ∧ (instancesGet (envOf1 FetchOutcome.timeout) reqRec1).1
      = Response.syncInstances [(resultErrEntry iRemote "x").inst] :=
  ⟨rfl, rfl⟩

/-- C2 (amended): a remote member whose batched fetch fails (connection
error, protocol error, or the timeout outcome) contributes exactly one
error entry per identity it owns (the specific cause string being
discarded, not recorded); the outcome for every other member is
independent of that member's fetch oracles; and a fetch failure never
escalates to a request-level error — whenever resolution, permission
lookup and the fan-out complete, the response has a success shape. -/
theorem C2_member_failure_isolated :
    (∀ (env : Env) (r : Int) (projs : List String) (addr : String)
        (insts : List DBInstance) (e : String),
      addr ≠ "" → addr ≠ "0.0.0.0" →
      (r = 1 → doInstancesGetFromNode env addr = Except.error e) →
      (r ≠ 1 → doInstancesFullGetFromNode env addr = Except.error e) →
      memberEntries env false r true projs addr insts
        = Except.ok (insts.map (fun i => resultErrEntry i e), [Call.fetchMember addr]))
    ∧ (∀ (e1 e2 : Env) (a : String) (notif : Bool) (r : Int) (mustLoad : Bool)
        (projs : List String) (addr : String) (insts : List DBInstance),
      agreeExceptAt e1 e2 a → addr ≠ a →
      memberEntries e1 notif r mustLoad projs addr insts
        = memberEntries e2 notif r mustLoad projs addr insts)
    ∧ (∀ (env : Env) (req : Req) (cl : Option Clauses) (projs : List String)
        (mm : List (String × List DBInstance)) (check : String → String → Bool)
        (entries : List InstanceFull) (calls : List Call),
      req.filterParse = Except.ok cl →
      (req.allProjects && req.projectName != "") = false →
      locationPlan env req.allProjects
          (if !req.allProjects && req.projectName == "" then projectDefaultName
           else req.projectName) = Except.ok (projs, mm) →
      env.permChecker = Except.ok check →
      aggregateEntries env req.isClusterNotification ((atoi req.recursionStr).getD 0)
          (mustLoadObjects ((atoi req.recursionStr).getD 0) cl) projs
          (permFilter check mm) = Except.ok (entries, calls) →
      (instancesGet env req).1.isSync = true) := by
  refine ⟨memberEntries_remote_failure, ?_, ?_⟩
  · intro e1 e2 a notif r mustLoad projs addr insts hag hB
    exact memberEntries_congr e1 e2 a hag notif r mustLoad projs addr insts hB
  · intro env req cl projs mm check entries calls hf hscope hplan hperm hagg
    unfold instancesGet
    rw [hf]
    rw [core_success env req.isClusterNotification cl req.allProjects req.projectName
      ((atoi req.recursionStr).getD 0) projs mm check entries calls hscope hplan hperm hagg]
    exact projectOutput_isSync _ _

/-- A second remote identity, owned by a second remote member. -/
def iRemote2 : DBInstance :=
  { id := 8, name := "db", project := "default", location := "m3", itype := "container" }

/-- The summary record member "10.0.0.2" returns for `iRemote2`. -/
def cBeta : Instance :=
  { name := "db", project := "default", location := "m3", status := "Running",
    statusCode := 103, itype := "container" }

/-- Environment with two remote members; the fetch outcome at
"10.0.0.1" is the parameter, "10.0.0.2" always answers. -/
def envTwo (fA : FetchOutcome Instance) : Env :=
  { projects := Except.ok ["default"]
    instancesByMember := fun _ =>
      Except.ok [("10.0.0.1", [iRemote]), ("10.0.0.2", [iRemote2])]
    permChecker := Except.ok fun _ _ => true
    hostInterfaces := []
    loadLocal := fun _ => Except.ok []
    fetch1 := fun a => if a = "10.0.0.1" then fA else FetchOutcome.success [cBeta]
    fetch2 := fun _ => FetchOutcome.timeout }

/-- C2 witness: the isolation theorem applied to a concrete two-member
cluster where "10.0.0.1" times out and "10.0.0.2" answers. -/
theorem C2_witness :
    memberEntries (envTwo FetchOutcome.timeout) false 1 true ["default"] "10.0.0.1" [iRemote]
      = Except.ok ([resultErrEntry iRemote "Timeout getting instances from member 10.0.0.1"],
          [Call.fetchMember "10.0.0.1"])
    ∧ memberEntries (envTwo FetchOutcome.timeout) false 1 true ["default"] "10.0.0.2" [iRemote2]
      = memberEntries (envTwo (FetchOutcome.failure "boom")) false 1 true ["default"]
          "10.0.0.2" [iRemote2]
    ∧ (instancesGet (envTwo FetchOutcome.timeout) reqRec1).1.isSync = true :=
  ⟨C2_member_failure_isolated.1 (envTwo FetchOutcome.timeout) 1 ["default"] "10.0.0.1"
    [iRemote] "Timeout getting instances from member 10.0.0.1" (by decide) (by decide)
    (fun _ => rfl) (fun h => absurd rfl h),
   C2_member_failure_isolated.2.1 (envTwo FetchOutcome.timeout)
    (envTwo (FetchOutcome.failure "boom")) "10.0.0.1" false 1 true ["default"] "10.0.0.2"
    [iRemote2]
    ⟨rfl, rfl, rfl, rfl, rfl,
     fun b hb => by simp [envTwo, hb],
     fun b hb => rfl⟩
    (by decide),
   C2_member_failure_isolated.2.2 (envTwo FetchOutcome.timeout) reqRec1 none ["default"]
    [("10.0.0.1", [iRemote]), ("10.0.0.2", [iRemote2])] (fun _ _ => true)
    [resultErrEntry iRemote "x", { inst := cBeta, state := none }]
    [Call.fetchMember "10.0.0.1", Call.fetchMember "10.0.0.2"]
    rfl rfl rfl rfl rfl⟩

/-- With `mustLoadObjects` false the whole fan-out degenerates to the
reference entries of the plan, in plan order, performing no calls. -/
theorem aggregate_noload (env : Env) (r : Int) (projs : List String)
    (mm : List (String × List DBInstance)) :
    aggregateEntries env false r false projs mm = Except.ok (planRefs mm, []) := by
  induction mm with
  | nil => rfl
  | cons m ms ih =>
    unfold aggregateEntries
    simp only [memberEntries_noload env r projs m.1 m.2, ih, planRefs]
    rfl

/-- C5: a depth-0 request with no filter expression performs exactly one
store query — no render and no remote fetch — and returns precisely the
reference URLs built from each surviving identity's project and name
(every member of the plan, in sorted order). -/
theorem C5_depth0_no_filter (env : Env) (req : Req) (cl : Option Clauses)
    (projs : List String) (mm : List (String × List DBInstance))
    (check : String → String → Bool)
    (hr : (atoi req.recursionStr).getD 0 = 0)
    (hf : req.filterParse = Except.ok cl)
    (hcl : hasClauses cl = false)
    (hn : req.isClusterNotification = false)
    (hscope : (req.allProjects && req.projectName != "") = false)
    (hplan : locationPlan env req.allProjects
        (if !req.allProjects && req.projectName == "" then projectDefaultName
         else req.projectName) = Except.ok (projs, mm))
    (hperm : env.permChecker = Except.ok check) :
    instancesGet env req
      = (Response.syncRefs ((sortEntries (planRefs (permFilter check mm))).map
            fun e => instanceURL e.inst.project e.inst.name),
         [Call.storeQuery]) := by
  have hml : mustLoadObjects 0 cl = false := by
    unfold mustLoadObjects
    simp [hcl]
  unfold instancesGet
  rw [hf, hn, hr]
  have hagg : aggregateEntries env false 0 (mustLoadObjects 0 cl) projs
      (permFilter check mm) = Except.ok (planRefs (permFilter check mm), []) := by
    rw [hml]
    exact aggregate_noload env 0 projs (permFilter check mm)
  rw [core_success env false cl req.allProjects req.projectName 0 projs mm check
    (planRefs (permFilter check mm)) [] hscope hplan hperm hagg]
  rw [applyFilter_trivial cl _ hcl]
  rfl

/-- Environment mixing a local member, a healthy-plan remote member whose
fetches fail, and the unavailable sentinel member. -/
def envMix : Env :=
  { projects := Except.ok ["default"]
    instancesByMember := fun _ =>
      Except.ok [("", [iLocal]), ("10.0.0.1", [iRemote]), ("0.0.0.0", [iDown])]
    permChecker := Except.ok fun _ _ => true
    hostInterfaces := ["eth0"]
    loadLocal := fun _ => Except.ok [liAlpha]
    fetch1 := fun _ => FetchOutcome.timeout
    fetch2 := fun _ => FetchOutcome.timeout }

/-- C5 witness: the depth-0 theorem applied to a mixed three-member plan;
the output is exactly the three reference URLs, and the log holds only
the store query. -/
theorem C5_witness :
    instancesGet envMix reqRefs
      = (Response.syncRefs
          ["/1.0/instances/alpha", "/1.0/instances/web", "/1.0/instances/zeta"],
         [Call.storeQuery]) := by
  have h := C5_depth0_no_filter envMix reqRefs none ["default"]
    [("", [iLocal]), ("10.0.0.1", [iRemote]), ("0.0.0.0", [iDown])] (fun _ _ => true)
    rfl rfl rfl rfl rfl rfl rfl
  rw [h]
  rfl

/-- C4: a depth-0 request with a non-trivial filter runs the fan-out with
`mustLoadObjects` true (the aggregation hypothesis below carries the
literal `true`), evaluates the filter against the populated, sorted
records, and only then downgrades the surviving entries to reference
URLs. -/
theorem C4_filter_upgrade_downgrade (env : Env) (req : Req) (c : Clauses)
    (projs : List String) (mm : List (String × List DBInstance))
    (check : String → String → Bool) (entries : List InstanceFull) (calls : List Call)
    (hr : (atoi req.recursionStr).getD 0 = 0)
    (hf : req.filterParse = Except.ok (some c))
    (hcl : c.clauses.isEmpty = false)
    (hscope : (req.allProjects && req.projectName != "") = false)
    (hplan : locationPlan env req.allProjects
        (if !req.allProjects && req.projectName == "" then projectDefaultName
         else req.projectName) = Except.ok (projs, mm))
    (hperm : env.permChecker = Except.ok check)
    (hagg : aggregateEntries env req.isClusterNotification 0 true projs
        (permFilter check mm) = Except.ok (entries, calls)) :
    instancesGet env req
      = (Response.syncRefs ((filterFull (sortEntries entries) c).map
            fun e => instanceURL e.inst.project e.inst.name),
         Call.storeQuery :: calls) := by
  have hml : mustLoadObjects 0 (some c) = true := by
    unfold mustLoadObjects hasClauses
    simp [hcl]
  unfold instancesGet
  rw [hf, hr]
  have hagg2 : aggregateEntries env req.isClusterNotification 0
      (mustLoadObjects 0 (some c)) projs (permFilter check mm)
      = Except.ok (entries, calls) := by
    rw [hml]
    exact hagg
  rw [core_success env req.isClusterNotification (some c) req.allProjects req.projectName 0
    projs mm check entries calls hscope hplan hperm hagg2]
  rw [applyFilter_clauses c _ hcl]
  rfl

/-- A second local identity whose summary renders as Stopped. -/
def iStop : DBInstance :=
  { id := 2, name := "bravo", project := "default", location := "", itype := "container" }

/-- The summary record `iStop` renders to. -/
def cBravo : Instance :=
  { name := "bravo", project := "default", location := "", status := "Stopped",
    statusCode := 102, itype := "container" }

/-- The loaded local instance behind `iStop`. -/
def liBravo : LocalInst :=
  { id := 2, render := Except.ok cBravo,
    renderFull := fun _ => Except.ok { inst := cBravo, state := some "full" } }

/-- The parsed filter `status=Running`, as a single predicate clause. -/
def clRunning : Clauses := ⟨[fun e => e.inst.status == "Running"]⟩

/-- Environment with two local instances, one Running and one Stopped. -/
def envFilter : Env :=
  { projects := Except.ok ["default"]
    instancesByMember := fun _ => Except.ok [("", [iLocal, iStop])]
    permChecker := Except.ok fun _ _ => true
    hostInterfaces := []
    loadLocal := fun _ => Except.ok [liAlpha, liBravo]
    fetch1 := fun _ => FetchOutcome.timeout
    fetch2 := fun _ => FetchOutcome.timeout }

/-- A depth-0 request carrying the `status=Running` filter. -/
def reqFilter0 : Req :=
  { recursionStr := "0", filterParse := Except.ok (some clRunning), projectName := "",
    allProjects := false, isClusterNotification := false }

/-- C4 witness: filtering `status=Running` at depth 0 over a Running and
a Stopped instance returns exactly the reference URL of the Running one,
after both were rendered (two render calls in the log). -/
theorem C4_witness :
    instancesGet envFilter reqFilter0
      = (Response.syncRefs ["/1.0/instances/alpha"],
         [Call.storeQuery, Call.render 1, Call.render 2]) := by
  have h := C4_filter_upgrade_downgrade envFilter reqFilter0 clRunning ["default"]
    [("", [iLocal, iStop])] (fun _ _ => true)
    [{ inst := cAlpha, state := none }, { inst := cBravo, state := none }]
    [Call.render 1, Call.render 2]
    rfl rfl rfl rfl rfl rfl rfl
  rw [h]
  rfl

/- Order theory for the sort comparison. -/

theorem charListLT_asymm : ∀ (a b : List Char),
    charListLT a b = true → charListLT b a = false
  | [], [] => by simp [charListLT]
  | [], _ :: _ => fun _ => rfl
  | _ :: _, [] => by simp [charListLT]
  | a :: as, b :: bs => by
    intro h
    unfold charListLT at h ⊢
    by_cases h1 : a.toNat < b.toNat
    · have h2 : ¬ b.toNat < a.toNat := by omega
      rw [if_neg h2, if_pos h1]
    · rw [if_neg h1] at h
      by_cases h2 : b.toNat < a.toNat
      · rw [if_pos h2] at h
        cases h
      · rw [if_neg h2] at h
        rw [if_neg h2, if_neg h1]
        exact charListLT_asymm as bs h

theorem charListLT_nil (c : List Char) : charListLT c [] = false := by
  cases c <;> rfl

theorem charListLT_negTrans : ∀ (a b c : List Char),
    charListLT b a = false → charListLT c b = false → charListLT c a = false
  | [], _, _ => fun _ _ => charListLT_nil _
  | _ :: _, [], _ => by
    intro h1 _
    simp [charListLT] at h1
  | _ :: _, _ :: _, [] => by
    intro _ h2
    simp [charListLT] at h2
  | a :: as, b :: bs, c :: cs => by
    intro h1 h2
    unfold charListLT at h1 h2 ⊢
    by_cases hba : b.toNat < a.toNat
    · rw [if_pos hba] at h1
      cases h1
    · rw [if_neg hba] at h1
      by_cases hcb : c.toNat < b.toNat
      · rw [if_pos hcb] at h2
        cases h2
      · rw [if_neg hcb] at h2
        have hca : ¬ c.toNat < a.toNat := by omega
        rw [if_neg hca]
        by_cases hac : a.toNat < c.toNat
        · rw [if_pos hac]
        · rw [if_neg hac]
          have hab : ¬ a.toNat < b.toNat := by omega
          have hbc : ¬ b.toNat < c.toNat := by omega
          rw [if_neg hab] at h1
          rw [if_neg hbc] at h2
          exact charListLT_negTrans as bs cs h1 h2

theorem charListLT_antisymm : ∀ (a b : List Char),
    charListLT a b = false → charListLT b a = false → a = b
  | [], [] => fun _ _ => rfl
  | [], _ :: _ => by
    intro h1 _
    simp [charListLT] at h1
  | _ :: _, [] => by
    intro _ h2
    simp [charListLT] at h2
  | a :: as, b :: bs => by
    intro h1 h2
    unfold charListLT at h1 h2
    by_cases hab : a.toNat < b.toNat
    · rw [if_pos hab] at h1
      cases h1
    · rw [if_neg hab] at h1
      by_cases hba : b.toNat < a.toNat
      · rw [if_pos hba] at h2
        cases h2
      · rw [if_neg hba] at h1 h2
        rw [if_neg hab] at h2
        have hc : a = b := by
          have hn : a.toNat = b.toNat := by omega
          have := congrArg Char.ofNat hn
          rwa [Char.ofNat_toNat, Char.ofNat_toNat] at this
        rw [hc, charListLT_antisymm as bs h1 h2]

theorem strLT_antisymm (a b : String) (h1 : strLT a b = false) (h2 : strLT b a = false) :
    a = b := by
  unfold strLT at h1 h2
  have := charListLT_antisymm a.data b.data h1 h2
  cases a
  cases b
  exact congrArg String.mk this

theorem entryLE_trans (a b c : InstanceFull) (h1 : entryLE a b) (h2 : entryLE b c) :
    entryLE a c := by
  unfold entryLE entryLess strLT at h1 h2 ⊢
  by_cases hba : b.inst.project = a.inst.project
  · rw [if_pos hba] at h1
    by_cases hcb : c.inst.project = b.inst.project
    · rw [if_pos hcb] at h2
      rw [if_pos (hcb.trans hba)]
      exact charListLT_negTrans _ _ _ h1 h2
    · rw [if_neg hcb] at h2
      have hca : ¬ c.inst.project = a.inst.project := by
        intro hc
        exact hcb (hc.trans hba.symm)
      rw [if_neg hca]
      rw [hba] at h2
      exact h2
  · rw [if_neg hba] at h1
    by_cases hcb : c.inst.project = b.inst.project
    · rw [if_pos hcb] at h2
      have hca : ¬ c.inst.project = a.inst.project := by
        intro hc
        exact hba (hcb ▸ hc)
      rw [if_neg hca, hcb]
      exact h1
    · rw [if_neg hcb] at h2
      by_cases hca : c.inst.project = a.inst.project
      · rw [if_pos hca]
        rw [hca] at h2
        exact absurd (strLT_antisymm _ _ h1 h2) hba
      · rw [if_neg hca]
        exact charListLT_negTrans _ _ _ h1 h2

theorem entryLess_asymm (x y : InstanceFull) (h : entryLess x y = true) :
    entryLess y x = false := by
  unfold entryLess strLT at h ⊢
  by_cases hp : x.inst.project = y.inst.project
  · rw [if_pos hp] at h
    rw [if_pos hp.symm]
    exact charListLT_asymm _ _ h
  · rw [if_neg hp] at h
    rw [if_neg (fun hc => hp hc.symm)]
    exact charListLT_asymm _ _ h

theorem entryLE_total (a b : InstanceFull) : entryLE a b ∨ entryLE b a := by
  unfold entryLE
  by_cases h : entryLess b a = true
  · right
    exact entryLess_asymm b a h
  · left
    rw [Bool.not_eq_true] at h
    exact h

instance : IsTrans InstanceFull entryLE := ⟨entryLE_trans⟩

instance : IsTotal InstanceFull entryLE := ⟨entryLE_total⟩

/-- The (b,x) entry of the spec's sort example. -/
def eBX : InstanceFull :=
  { inst := { name := "x", project := "b", location := "", status := "", statusCode := 0,
              itype := "" },
    state := none }

/-- The (a,z) entry of the spec's sort example. -/
def eAZ : InstanceFull :=
  { inst := { name := "z", project := "a", location := "", status := "", statusCode := 0,
              itype := "" },
    state := none }

/-- The (a,a) entry of the spec's sort example. -/
def eAA : InstanceFull :=
  { inst := { name := "a", project := "a", location := "", status := "", statusCode := 0,
              itype := "" },
    state := none }

/-- C6: the post-processor's sort is a permutation of its input, sorted
by (project ascending, name ascending); the spec's three-entry example
sorts to [(a,a), (a,z), (b,x)] from every arrival order; a sorted input
is left unchanged (stability on ties), and re-sorting is idempotent. -/
theorem C6_sort_deterministic :
    (∀ l : List InstanceFull, (sortEntries l).Perm l)
    ∧ (∀ l : List InstanceFull, List.Pairwise entryLE (sortEntries l))
    ∧ (∀ l : List InstanceFull, l.Perm [eBX, eAZ, eAA] → sortEntries l = [eAA, eAZ, eBX])
    ∧ (∀ l : List InstanceFull, List.Pairwise entryLE l → sortEntries l = l)
    ∧ (∀ l : List InstanceFull, sortEntries (sortEntries l) = sortEntries l) := by
  have hperm : ∀ l : List InstanceFull, (sortEntries l).Perm l :=
    fun l => List.perm_insertionSort entryLE l
  have hsorted : ∀ l : List InstanceFull, List.Pairwise entryLE (sortEntries l) :=
    fun l => List.sorted_insertionSort entryLE l
  have hfix : ∀ l : List InstanceFull, List.Pairwise entryLE l → sortEntries l = l :=
    fun l hl => List.Sorted.insertionSort_eq hl
  refine ⟨hperm, hsorted, ?_, hfix, fun l => hfix (sortEntries l) (hsorted l)⟩
  intro l hp
  have hlen : l.length = 3 := by
    rw [hp.length_eq]
    rfl
  match l, hlen with
  | [x, y, z], _ =>
    have hx : x ∈ [eBX, eAZ, eAA] := hp.subset (by simp)
    have hy : y ∈ [eBX, eAZ, eAA] := hp.subset (by simp)
    have hz : z ∈ [eBX, eAZ, eAA] := hp.subset (by simp)
    simp only [List.mem_cons, List.not_mem_nil, or_false] at hx hy hz
    rcases hx with rfl | rfl | rfl <;> rcases hy with rfl | rfl | rfl <;>
      rcases hz with rfl | rfl | rfl <;>
      first
        | exact absurd hp (by decide)
        | decide

/-- C6 witness: the sort theorem applied to one concrete arrival order of
the example, and idempotence at that list. -/
theorem C6_witness :
    sortEntries [eBX, eAZ, eAA] = [eAA, eAZ, eBX]
    ∧ sortEntries (sortEntries [eBX, eAZ, eAA]) = sortEntries [eBX, eAZ, eAA]
    ∧ (sortEntries [eBX, eAZ, eAA]).Perm [eBX, eAZ, eAA] :=
  ⟨C6_sort_deterministic.2.2.1 [eBX, eAZ, eAA] (List.Perm.refl _),
   C6_sort_deterministic.2.2.2.2 [eBX, eAZ, eAA],
   C6_sort_deterministic.1 [eBX, eAZ, eAA]⟩

/- Key accounting: which (project, name) keys each component's entries
carry. -/

theorem errEntry_keys (insts : List DBInstance) (e : String) :
    (insts.map (fun i => resultErrEntry i e)).map keyOf = insts.map keyOfDB := by
  induction insts with
  | nil => rfl
  | cons i is ih =>
    simp only [List.map_cons, ih]
    rfl

theorem refEntry_keys (insts : List DBInstance) :
    (insts.map refEntry).map keyOf = insts.map keyOfDB := by
  induction insts with
  | nil => rfl
  | cons i is ih =>
    simp only [List.map_cons, ih]
    rfl

theorem renderOne_keys (env : Env) (r : Int) (byID : Int → Option LocalInst)
    (i : DBInstance) (li : LocalInst)
    (hb : byID i.id = some li) (hk : renderKeyOK env li i) :
    (renderOne env r byID i).1.map keyOf = [keyOfDB i] := by
  unfold renderOne
  simp only [hb]
  by_cases h : r < 2
  · rw [if_pos h]
    cases hc : li.render with
    | error e => rfl
    | ok c =>
      obtain ⟨hpr, hnm⟩ := hk.1 c hc
      show [(c.project, c.name)] = [(i.project, i.name)]
      rw [hpr, hnm]
  · rw [if_neg h]
    cases hc : li.renderFull env.hostInterfaces with
    | error e => rfl
    | ok f =>
      have hkf := hk.2 f hc
      show [keyOf f] = [keyOfDB i]
      rw [hkf]

theorem renderAll_keys (env : Env) (r : Int) (byID : Int → Option LocalInst)
    (insts : List DBInstance)
    (hc : ∀ i ∈ insts, ∃ li, byID i.id = some li ∧ renderKeyOK env li i) :
    (renderAll env r byID insts).1.map keyOf = insts.map keyOfDB := by
  induction insts with
  | nil => rfl
  | cons i is ih =>
    obtain ⟨li, hb, hk⟩ := hc i (List.mem_cons_self i is)
    have hrest := ih fun j hj => hc j (List.mem_cons_of_mem i hj)
    unfold renderAll
    simp only [List.map_append, List.map_cons]
    rw [renderOne_keys env r byID i li hb hk, hrest]
    rfl

theorem memberEntries_keys (env : Env) (r : Int) (mustLoad : Bool)
    (projs : List String) (addr : String) (insts : List DBInstance)
    (es : List InstanceFull) (cs : List Call) (lis : List LocalInst)
    (hload : loadLocalAll env projs = Except.ok lis)
    (hcover : addr = "" → ∀ i ∈ insts,
      ∃ li, lookupLocal lis i.id = some li ∧ renderKeyOK env li i)
    (hrem1 : addr ≠ "" → addr ≠ "0.0.0.0" → r = 1 →
      ∃ e, doInstancesGetFromNode env addr = Except.error e)
    (hrem2 : addr ≠ "" → addr ≠ "0.0.0.0" → r ≠ 1 →
      ∃ e, doInstancesFullGetFromNode env addr = Except.error e)
    (h : memberEntries env false r mustLoad projs addr insts = Except.ok (es, cs)) :
    es.map keyOf = insts.map keyOfDB := by
  unfold memberEntries at h
  rw [Bool.false_and] at h
  simp only [Bool.false_eq_true, if_false] at h
  by_cases h2 : (mustLoad && addr == "0.0.0.0") = true
  · rw [if_pos h2] at h
    simp only [Except.ok.injEq, Prod.mk.injEq] at h
    obtain ⟨he, -⟩ := h
    rw [← he]
    exact errEntry_keys insts "unavailable"
  · rw [if_neg h2] at h
    by_cases h3 : (mustLoad && addr != "" && !false) = true
    · have hml : mustLoad = true := by
        rcases Bool.and_eq_true_iff.mp h3 with ⟨h4, -⟩
        rcases Bool.and_eq_true_iff.mp h4 with ⟨h5, -⟩
        exact h5
      have haddr_ne : addr ≠ "" := by
        rcases Bool.and_eq_true_iff.mp h3 with ⟨h4, -⟩
        rcases Bool.and_eq_true_iff.mp h4 with ⟨-, h5⟩
        exact bne_iff_ne.mp h5
      have haddr_ns : addr ≠ "0.0.0.0" := by
        intro hc
        apply h2
        rw [hml, hc]
        rfl
      rw [if_pos h3] at h
      by_cases hr : (r == 1) = true
      · obtain ⟨e, he⟩ := hrem1 haddr_ne haddr_ns (eq_of_beq hr)
        rw [if_pos hr] at h
        simp only [he, Except.ok.injEq, Prod.mk.injEq] at h
        obtain ⟨he1, -⟩ := h
        rw [← he1]
        exact errEntry_keys insts e
      · have hne1 : r ≠ 1 := by
          intro hc
          apply hr
          rw [hc]
          rfl
        obtain ⟨e, he⟩ := hrem2 haddr_ne haddr_ns hne1
        rw [if_neg hr] at h
        simp only [he, Except.ok.injEq, Prod.mk.injEq] at h
        obtain ⟨he1, -⟩ := h
        rw [← he1]
        exact errEntry_keys insts e
    · rw [if_neg h3] at h
      by_cases h4 : (!mustLoad) = true
      · rw [if_pos h4] at h
        simp only [Except.ok.injEq, Prod.mk.injEq] at h
        obtain ⟨he, -⟩ := h
        rw [← he]
        exact refEntry_keys insts
      · rw [if_neg h4] at h
        have hml : mustLoad = true := by
          cases hm : mustLoad with
          | true => rfl
          | false =>
            refine absurd ?_ h4
            rw [hm]
            rfl
        have haddr : addr = "" := by
          cases hb : (addr != "") with
          | true =>
            refine absurd ?_ h3
            rw [hml, hb]
            rfl
          | false =>
            have : ¬ addr ≠ "" := fun hc => by
              rw [bne_iff_ne.mpr hc] at hb
              cases hb
            exact not_not.mp this
        unfold localMemberEntries at h
        simp only [hload] at h
        injection h with h
        have he : es = (renderAll env r (lookupLocal lis) insts).1 := by
          rw [h]
        rw [he]
        exact renderAll_keys env r (lookupLocal lis) insts (hcover haddr)

theorem aggregate_keys (env : Env) (r : Int) (mustLoad : Bool) (projs : List String)
    (lis : List LocalInst)
    (hload : loadLocalAll env projs = Except.ok lis) :
    ∀ (mm : List (String × List DBInstance)) (es : List InstanceFull) (cs : List Call),
      (∀ m ∈ mm, m.1 = "" → ∀ i ∈ m.2,
        ∃ li, lookupLocal lis i.id = some li ∧ renderKeyOK env li i) →
      (∀ m ∈ mm, m.1 ≠ "" → m.1 ≠ "0.0.0.0" → r = 1 →
        ∃ e, doInstancesGetFromNode env m.1 = Except.error e) →
      (∀ m ∈ mm, m.1 ≠ "" → m.1 ≠ "0.0.0.0" → r ≠ 1 →
        ∃ e, doInstancesFullGetFromNode env m.1 = Except.error e) →
      aggregateEntries env false r mustLoad projs mm = Except.ok (es, cs) →
      es.map keyOf = planKeys mm := by
  intro mm
  induction mm with
  | nil =>
    intro es cs _ _ _ h
    simp only [aggregateEntries, Except.ok.injEq, Prod.mk.injEq] at h
    obtain ⟨he, -⟩ := h
    rw [← he]
    rfl
  | cons m ms ih =>
    intro es cs hcov hr1 hr2 h
    unfold aggregateEntries at h
    cases hm : memberEntries env false r mustLoad projs m.1 m.2 with
    | error rm =>
      rw [hm] at h
      cases h
    | ok res =>
      obtain ⟨es1, cs1⟩ := res
      simp only [hm] at h
      cases ha : aggregateEntries env false r mustLoad projs ms with
      | error rc =>
        obtain ⟨r2, cs2⟩ := rc
        simp only [ha] at h
        cases h
      | ok res2 =>
        obtain ⟨es2, cs2⟩ := res2
        simp only [ha, Except.ok.injEq, Prod.mk.injEq] at h
        obtain ⟨he, -⟩ := h
        have hk1 := memberEntries_keys env r mustLoad projs m.1 m.2 es1 cs1 lis hload
          (hcov m (List.mem_cons_self m ms)) (hr1 m (List.mem_cons_self m ms))
          (hr2 m (List.mem_cons_self m ms)) hm
        have hk2 := ih es2 cs2
          (fun j hj => hcov j (List.mem_cons_of_mem m hj))
          (fun j hj => hr1 j (List.mem_cons_of_mem m hj))
          (fun j hj => hr2 j (List.mem_cons_of_mem m hj)) ha
        rw [← he]
        simp only [List.map_append, hk1, hk2]
        rfl

/-- C1: the claim as stated is false — an identity can be silently
dropped.  A recursion-1 request over a single local identity whose ID is
absent from the loaded local-instance map returns an empty list, even
though the identity survived the permission filter: zero OutcomeEntries
instead of exactly one. -/
theorem C1_counterexample :
    instancesGet envDrop reqRec1 = (Response.syncInstances [], [Call.storeQuery])
    ∧ permFilter (fun _ _ => true) [("", [iLocal])] = [("", [iLocal])]
    ∧ envDrop.instancesByMember ["default"] = Except.ok [("", [iLocal])] :=
  ⟨rfl, rfl, rfl⟩

/-- C1 (amended): for a request that is not an inter-member propagation
and carries no filter expression, if every surviving local identity is
present in the loaded local-instance map with identity-preserving
renders, and every healthy remote member's batched fetch fails, then the
final output carries exactly one OutcomeEntry per surviving identity:
its (project, name) keys are a permutation of the permission-filtered
plan's keys.  (Identities absent from the local map are silently
dropped, a successful remote fetch contributes whatever list the remote
returned, and propagated requests drop remote identities — these are the
carve-outs the counterexample forces.) -/
theorem C1_exactly_once_amended (env : Env) (req : Req) (cl : Option Clauses)
    (projs : List String) (mm : List (String × List DBInstance))
    (check : String → String → Bool) (entries : List InstanceFull) (calls : List Call)
    (lis : List LocalInst)
    (hf : req.filterParse = Except.ok cl)
    (hcl : hasClauses cl = false)
    (hn : req.isClusterNotification = false)
    (hscope : (req.allProjects && req.projectName != "") = false)
    (hplan : locationPlan env req.allProjects
        (if !req.allProjects && req.projectName == "" then projectDefaultName
         else req.projectName) = Except.ok (projs, mm))
    (hperm : env.permChecker = Except.ok check)
    (hload : loadLocalAll env projs = Except.ok lis)
    (hcover : ∀ m ∈ permFilter check mm, m.1 = "" → ∀ i ∈ m.2,
      ∃ li, lookupLocal lis i.id = some li ∧ renderKeyOK env li i)
    (hrem1 : ∀ m ∈ permFilter check mm, m.1 ≠ "" → m.1 ≠ "0.0.0.0" →
      (atoi req.recursionStr).getD 0 = 1 →
      ∃ e, doInstancesGetFromNode env m.1 = Except.error e)
    (hrem2 : ∀ m ∈ permFilter check mm, m.1 ≠ "" → m.1 ≠ "0.0.0.0" →
      (atoi req.recursionStr).getD 0 ≠ 1 →
      ∃ e, doInstancesFullGetFromNode env m.1 = Except.error e)
    (hagg : aggregateEntries env false ((atoi req.recursionStr).getD 0)
      (mustLoadObjects ((atoi req.recursionStr).getD 0) cl) projs (permFilter check mm)
      = Except.ok (entries, calls)) :
    instancesGet env req
      = (projectOutput ((atoi req.recursionStr).getD 0) (sortEntries entries),
         Call.storeQuery :: calls)
    ∧ ((sortEntries entries).map keyOf).Perm (planKeys (permFilter check mm)) := by
  constructor
  · unfold instancesGet
    rw [hf, hn]
    rw [core_success env false cl req.allProjects req.projectName
      ((atoi req.recursionStr).getD 0) projs mm check entries calls hscope hplan hperm hagg]
    rw [applyFilter_trivial cl _ hcl]
  · have hkeys := aggregate_keys env ((atoi req.recursionStr).getD 0)
      (mustLoadObjects ((atoi req.recursionStr).getD 0) cl) projs lis hload
      (permFilter check mm) entries calls hcover hrem1 hrem2 hagg
    have hperm2 : ((sortEntries entries).map keyOf).Perm (entries.map keyOf) :=
      (List.perm_insertionSort entryLE entries).map keyOf
    rw [hkeys] at hperm2
    exact hperm2

/-- C1 witness: the exactly-once theorem applied to a concrete mixed
plan (one loadable local identity, one timing-out remote member, one
unavailable member) at recursion 1. -/
theorem C1_witness :
    instancesGet envMix reqRec1
      = (projectOutput 1 (sortEntries
          [{ inst := cAlpha, state := none },
           resultErrEntry iRemote "Timeout getting instances from member 10.0.0.1",
           resultErrEntry iDown "unavailable"]),
         [Call.storeQuery, Call.render 1, Call.fetchMember "10.0.0.1"])
    ∧ ((sortEntries
        [{ inst := cAlpha, state := none },
         resultErrEntry iRemote "Timeout getting instances from member 10.0.0.1",
         resultErrEntry iDown "unavailable"]).map keyOf).Perm
      (planKeys (permFilter (fun _ _ => true)
          [("", [iLocal]), ("10.0.0.1", [iRemote]), ("0.0.0.0", [iDown])])) :=
  C1_exactly_once_amended envMix reqRec1 none ["default"]
    [("", [iLocal]), ("10.0.0.1", [iRemote]), ("0.0.0.0", [iDown])] (fun _ _ => true)
    [{ inst := cAlpha, state := none },
     resultErrEntry iRemote "Timeout getting instances from member 10.0.0.1",
     resultErrEntry iDown "unavailable"]
    [Call.render 1, Call.fetchMember "10.0.0.1"]
    [liAlpha]
    rfl rfl rfl rfl rfl rfl rfl
    (by
      intro m hm ha i hi
      have hm2 : m ∈ [("", [iLocal]), ("10.0.0.1", [iRemote]), ("0.0.0.0", [iDown])] := hm
      simp only [List.mem_cons, List.not_mem_nil, or_false] at hm2
      rcases hm2 with rfl | rfl | rfl
      · have hi2 : i ∈ [iLocal] := hi
        simp only [List.mem_singleton] at hi2
        rcases hi2 with rfl
        refine ⟨liAlpha, rfl, ?_, ?_⟩
        · intro c hc
          injection hc with hc
          rw [← hc]
          exact ⟨rfl, rfl⟩
        · intro f hf
          injection hf with hf
          rw [← hf]
          rfl
      · exact absurd ha (by decide)
      · exact absurd ha (by decide))
    (by
      intro m hm hne hns hrec
      exact ⟨"Timeout getting instances from member " ++ m.1, rfl⟩)
    (by
      intro m hm hne hns hrec
      exact ⟨"Timeout getting instances from member " ++ m.1, rfl⟩)
    rfl

end Incus
